import Mathlib

/-!
Shallow embedding of the domainterm pipeline (the `run` command of the CLI):
the queue fabric, the per-stage daemon ticks, the persistent caches, and the
collaborator-boundary functions (`checkDomainAvailability`, `getWebifiedWords`,
`getSynonyms`, `rateName`, and the translation-cleaning expression).

External collaborators (HTTP fetches, DNS, the local LLM) are modelled as
oracle parameters describing the outcome the outside world produces for the
single call a tick makes; everything after the call boundary follows the
source line by line.  JavaScript `Set`s of strings are modelled as
duplicate-free lists in insertion order; the `Set<Translation>` used for the
webification queue deduplicates by object identity, so its entries carry an
allocation tag (a `Nat`) playing the role of the JS object reference.
`undefined`-valued cache slots are modelled by storing `Option` values and
flattening on read, since every read in the source tests `=== undefined`
or truthiness.
-/

namespace Domainterm

/-- A parsed JSON value, as produced by `JSON.parse` on an LLM response body. -/
inductive Jv where
  | str (s : String)
  | num (n : Int)
  | bool (b : Bool)
  | null
  | arr (xs : List Jv)

/-- JavaScript truthiness of a JSON value. -/
def Jv.truthy : Jv → Bool
  | .str s => s ≠ ""
  | .num n => n ≠ 0
  | .bool b => b
  | .null => false
  | .arr _ => true

/-- A language entry from `utils/languages`. -/
structure Language where
  name : String
  code : String
deriving DecidableEq, Repr

/-- The `translation` sub-object of a translation record. -/
structure TranslationText where
  raw : String
  cleaned : String
deriving DecidableEq, Repr

/-- A translation record (`types.ts`). -/
structure Translation where
  word : String
  language : Language
  translation : TranslationText
deriving DecidableEq, Repr

/-- A translation record extended with its webified variants (`types.ts`). -/
structure TranslationWithWebifiedWords extends Translation where
  webifiedWords : List String
deriving DecidableEq, Repr

/-- The parsed body of the Cloudflare WHOIS response: its `success` flag and
the value of `result.found` when that path exists (`none` models a missing
`result` or `found` field). -/
structure WhoisData where
  success : Bool
  found : Option Bool
deriving DecidableEq, Repr

/-! ### Queue fabric and cache store -/

/-- `Set.add` on a string set: a no-op when the item is already present,
otherwise appended at the end (JS sets iterate in insertion order). -/
def setAdd (q : List String) (w : String) : List String :=
  if w ∈ q then q else q ++ [w]

/-- `Set.add` on the `Set<Translation>` webification queue.  JS compares
objects by reference, so entries are `(tag, record)` pairs and only the
allocation tag participates in the membership test. -/
def addRef (q : List (Nat × Translation)) (id : Nat) (t : Translation) :
    List (Nat × Translation) :=
  if q.any (fun p => p.1 = id) then q else q ++ [(id, t)]

/-- Read of `db.chain.get(partition).get(key).value()`: the stored value, or
`none` when the key is absent. -/
def cacheGet {α : Type} (c : List (String × α)) (k : String) : Option α :=
  (c.find? (fun p => p.1 = k)).map (fun p => p.2)

/-- Write of `db.data.partition[key] = v`: replace an existing binding or
append a new one. -/
def cacheSet {α : Type} (c : List (String × α)) (k : String) (v : α) :
    List (String × α) :=
  if c.any (fun p => p.1 = k) then
    c.map (fun p => if p.1 = k then (k, v) else p)
  else c ++ [(k, v)]

/-- Read of a cache partition whose stored values may themselves be the JS
`undefined` (the whois and ratings caches): a stored `none` is
indistinguishable from an absent key at every use site (`=== undefined`). -/
def cacheGetFlat {α : Type} (c : List (String × Option α)) (k : String) :
    Option α :=
  (cacheGet c k).bind id

/-! ### Collaborator boundary: `checkDomainAvailability` (utils/domains.ts) -/

/-- Embedding of `checkDomainAvailability`.  `dnsResolves` is the outcome of
`dns.promises.lookup` (caught, so a failed lookup is just `false`);
`whoisFetch` is the outcome of the WHOIS HTTP call: `.error ()` when the
`fetch` itself rejects (that `await` has no catch, so the exception
propagates), `.ok none` when the body fails to parse as JSON (that catch
returns `undefined`), `.ok (some d)` for a parsed body.  The first component
is the function's result (`Except.error` = it throws); the second records
whether the WHOIS provider was called at all. -/
def checkDomainAvailability (word : String) (dnsResolves : Bool)
    (whoisFetch : Except Unit (Option WhoisData)) :
    Except Unit (Option Bool) × Bool :=
  let _ := word.replace " " "" ++ ".com"
  if dnsResolves then (.ok (some false), false)
  else
    match whoisFetch with
    | .error e => (.error e, true)
    | .ok none => (.ok none, true)
    | .ok (some d) =>
      if !d.success then (.ok none, true)
      else (.ok (some !(d.found.getD false)), true)

/-! ### Collaborator boundary: the LLM helpers (utils/llms.ts) -/

/-- The possible outcomes of one `openai.chat.completions.create` call whose
message content is parsed as JSON:
  * `apiError` — the request rejected; the attached catch handler returns an
    empty object (which has no `choices` property);
  * `noContent` — a response whose `choices[0]?.message?.content` is absent;
  * `badJson` — content present but `JSON.parse` throws on it;
  * `content v` — content present and parsing to the JSON value `v`. -/
inductive ChatOutcome where
  | apiError
  | noContent
  | badJson
  | content (v : Jv)

/-- The body of the `.filter` applied to a parsed LLM array:
`Boolean(x) && !Array.isArray(x) && x.indexOf(" ") === -1`.  A truthy
non-array non-string reaches `.indexOf` and raises a `TypeError`, which the
surrounding `try` converts to an empty result; this evaluates the whole
filter, `none` signalling that `TypeError`. -/
def filterStringArray (items : List Jv) : Option (List String) :=
  if items.any (fun j => j.truthy &&
      (match j with | .str _ => false | .arr _ => false | _ => true)) then
    none
  else
    some (items.filterMap (fun j =>
      match j with
      | .str s => if s ≠ "" && !(s.contains ' ') then some s else none
      | _ => none))

/-- Shared shape of `getWebifiedWords` and `getSynonyms`: on `apiError` the
handler's empty object makes `response?.choices[0]` raise a `TypeError`
(`.choices` is `undefined` and `[0]` is not behind an optional guard), which
escapes the function; missing content returns `[]`; a `JSON.parse` failure,
a non-array parse, or a `TypeError` inside the filter is caught and returns
`[]`; otherwise the filtered strings are returned. -/
def llmStringList (o : ChatOutcome) : Except Unit (List String) :=
  match o with
  | .apiError => .error ()
  | .noContent => .ok []
  | .badJson => .ok []
  | .content v =>
    match v with
    | .arr items => .ok ((filterStringArray items).getD [])
    | _ => .ok []

/-- Embedding of `getWebifiedWords` (utils/llms.ts). -/
def getWebifiedWords (o : ChatOutcome) : Except Unit (List String) :=
  llmStringList o

/-- Embedding of `getSynonyms` (utils/llms.ts), structurally identical to
`getWebifiedWords`. -/
def getSynonyms (o : ChatOutcome) : Except Unit (List String) :=
  llmStringList o

/-- The possible outcomes of the `rateName` LLM call.  Every property access
on the response is behind optional chaining, so no outcome throws. -/
inductive RateOutcome where
  | apiError
  | noContent
  | badJson
  | parsed (rating : Option Int)
deriving DecidableEq, Repr

/-- Embedding of `rateName` (utils/llms.ts): on a rejected call, missing
content, or unparsable content, `JSON.parse` throws and the catch returns
the sentinel `-1`; a parsed value yields its `rating` field, which may be
`undefined` (`none`). -/
def rateName (o : RateOutcome) : Option Int :=
  match o with
  | .apiError => some (-1)
  | .noContent => some (-1)
  | .badJson => some (-1)
  | .parsed r => r

/-! ### Normalization (the cleaning expression of `getTranslations`) -/

/-- Character predicate of the regex `[^a-zA-Z]` used with `replace`: the
characters that survive the deletion. -/
def isAsciiLetter (c : Char) : Bool :=
  (65 ≤ c.toNat && c.toNat ≤ 90) || (97 ≤ c.toNat && c.toNat ≤ 122)

/-- A transliteration (such as `unidecode`) applied code-point-wise to a
string, concatenating the per-character expansions. -/
def translit (u : Char → List Char) (s : String) : String :=
  ⟨s.data.flatMap u⟩

/-- The cleaning expression of `getTranslations` (utils/translate.ts):
`unidecode(unidecode(x)).replace(/[^a-zA-Z]/g, "").toLowerCase()`, for an
arbitrary code-point-wise transliteration `u` in place of `unidecode`. -/
def clean (u : Char → List Char) (s : String) : String :=
  ⟨(((translit u (translit u s)).data).filter isAsciiLetter).map Char.toLower⟩

/-! ### The run command's mutable state -/

/-- How the process has exited, if at all. -/
inductive ExitReason where
  | running
  | convergence
  | missingWordFile
deriving DecidableEq, Repr

/-- The mutable state owned by the `run` command: the in-memory queues and
seen-set, the persistent cache partitions, the CLI length bounds, the
allocation counter standing in for JS object identity, and the exit flag. -/
structure SysState where
  minLength : Nat
  maxLength : Nat
  localBaseWordCache : List String
  translationQueue : List String
  webificationQueue : List (Nat × Translation)
  synonymQueue : List String
  whoisQueue : List String
  searchQueue : List String
  ratingQueue : List String
  translationCache : List (String × List (Nat × Translation))
  webifiedCache : List (String × TranslationWithWebifiedWords)
  synonymsCache : List (String × List String)
  whoisCache : List (String × Option Bool)
  ratingsCache : List (String × Option Int)
  nextId : Nat
  exitReason : ExitReason

/-- The state at the start of a run with the given length bounds: every
queue and cache partition empty. -/
def emptyState (minL maxL : Nat) : SysState where
  minLength := minL
  maxLength := maxL
  localBaseWordCache := []
  translationQueue := []
  webificationQueue := []
  synonymQueue := []
  whoisQueue := []
  searchQueue := []
  ratingQueue := []
  translationCache := []
  webifiedCache := []
  synonymsCache := []
  whoisCache := []
  ratingsCache := []
  nextId := 0
  exitReason := .running

/-! ### The daemon ticks -/

/-- Helper for `splitLines`: split a character list at every newline,
`acc` holding the current line reversed. -/
def splitLinesAux : List Char → List Char → List String
  | [], acc => [⟨acc.reverse⟩]
  | c :: cs, acc =>
    if c = '\n' then ⟨acc.reverse⟩ :: splitLinesAux cs []
    else splitLinesAux cs (c :: acc)

/-- JavaScript `contents.split("\n")`: the list of newline-separated
segments, including empty ones (so a trailing newline produces a trailing
empty string, and an empty input produces one empty string). -/
def splitLines (s : String) : List String :=
  splitLinesAux s.data []

/-- The body of the watcher's `forEach`: a line not yet in the in-memory
seen-set is recorded there and added to the translation, whois and synonym
queues; a line already seen is skipped.  Keys found on the prototype chain
of the plain-object seen-set (such as `"constructor"`) are not modelled. -/
def watcherAddWord (st : SysState) (w : String) : SysState :=
  if w ∈ st.localBaseWordCache then st
  else { st with
    localBaseWordCache := st.localBaseWordCache ++ [w]
    translationQueue := setAdd st.translationQueue w
    whoisQueue := setAdd st.whoisQueue w
    synonymQueue := setAdd st.synonymQueue w }

/-- One tick of the file-watcher daemon.  `file` is `none` when
`base-words.txt` does not exist (the `stat` catch yields `undefined` and the
process exits with the file-missing message) and otherwise carries the
file's contents, which are split on newlines and fed line by line to
`watcherAddWord`. -/
def watcherTick (file : Option String) (s : SysState) : SysState :=
  match file with
  | none => { s with exitReason := .missingWordFile }
  | some contents =>
    (splitLines contents).foldl watcherAddWord s

/-- The fan-out loop of the translation daemon: each record is added to the
webification queue (by reference), and its cleaned form, when truthy, to the
whois queue. -/
def translationFanOut (ts : List (Nat × Translation)) (s : SysState) :
    SysState :=
  ts.foldl (fun st p =>
    let st := { st with
      webificationQueue := addRef st.webificationQueue p.1 p.2 }
    if p.2.translation.cleaned = "" then st
    else { st with whoisQueue := setAdd st.whoisQueue p.2.translation.cleaned })
    s

/-- One tick of the translation daemon.  The first queue entry is taken; a
falsy (empty-string) entry returns before the delete.  On a cache miss the
collaborator outcome `fresh` is consulted: a rejection (`.error`) aborts the
tick after the delete with nothing cached (this daemon has no try/catch, so
the rejection is unhandled), a result is tagged with fresh object identities
and cached.  The boolean reports whether the collaborator was invoked. -/
def translationTick (fresh : Except Unit (List Translation)) (s : SysState) :
    SysState × Bool :=
  match s.translationQueue with
  | [] => (s, false)
  | word :: rest =>
    if word = "" then (s, false)
    else
      let s := { s with translationQueue := rest }
      match cacheGet s.translationCache word with
      | some ts => (translationFanOut ts s, false)
      | none =>
        match fresh with
        | .error _ => (s, true)
        | .ok ts =>
          let tagged := (List.range ts.length).zip ts |>.map
            (fun p => (s.nextId + p.1, p.2))
          let s := { s with
            translationCache := cacheSet s.translationCache word tagged
            nextId := s.nextId + ts.length }
          (translationFanOut tagged s, true)

/-- The fan-out loop of the synonym daemon: each truthy synonym is added to
the whois queue and, wrapped as a freshly allocated pseudo-translation record
in the English pseudo-language, to the webification queue. -/
def synonymFanOut (syns : List String) (s : SysState) : SysState :=
  (syns.filter (fun w => w ≠ "")).foldl (fun st w =>
    { st with
      whoisQueue := setAdd st.whoisQueue w
      webificationQueue := addRef st.webificationQueue st.nextId
        ⟨w, ⟨"English", "en"⟩, ⟨w, w⟩⟩
      nextId := st.nextId + 1 }) s

/-- One tick of the synonym daemon: falsy-entry early return, delete, cache
consultation, collaborator call on a miss (a thrown `TypeError` from
`getSynonyms` is caught by the daemon's try/catch, leaving nothing cached),
then fan-out. -/
def synonymTick (o : ChatOutcome) (s : SysState) : SysState × Bool :=
  match s.synonymQueue with
  | [] => (s, false)
  | word :: rest =>
    if word = "" then (s, false)
    else
      let s := { s with synonymQueue := rest }
      match cacheGet s.synonymsCache word with
      | some syns => (synonymFanOut syns s, false)
      | none =>
        match getSynonyms o with
        | .error _ => (s, true)
        | .ok syns =>
          let s := { s with synonymsCache := cacheSet s.synonymsCache word syns }
          (synonymFanOut syns s, true)

/-- The fan-out loop of the webification daemon: the cleaned source word and
every webified variant, filtered for truthiness, are added to the whois
queue. -/
def webFanOut (key : String) (ws : List String) (s : SysState) : SysState :=
  ((key :: ws).filter (fun w => w ≠ "")).foldl
    (fun st w => { st with whoisQueue := setAdd st.whoisQueue w }) s

/-- One tick of the webification daemon.  Queue entries are records, hence
never falsy; the dequeued record is deleted, the cache is keyed by its
cleaned form, and a stored record's `webifiedWords` array (even when empty)
counts as a hit.  On a miss, a thrown `TypeError` from `getWebifiedWords` is
caught with nothing cached; otherwise the record plus its variants is
cached.  Fan-out runs on both the hit and the successful-miss paths. -/
def webificationTick (o : ChatOutcome) (s : SysState) : SysState × Bool :=
  match s.webificationQueue with
  | [] => (s, false)
  | (_, rec) :: rest =>
    let s := { s with webificationQueue := rest }
    let key := rec.translation.cleaned
    match (cacheGet s.webifiedCache key).map
        TranslationWithWebifiedWords.webifiedWords with
    | some ws => (webFanOut key ws s, false)
    | none =>
      match getWebifiedWords o with
      | .error _ => (s, true)
      | .ok ws =>
        let s := { s with
          webifiedCache := cacheSet s.webifiedCache key ⟨rec, ws⟩ }
        (webFanOut key ws s, true)

/-- One tick of the whois daemon.  After the falsy-entry early return, the
dequeued word is deleted and dropped when its length is outside the
configured bounds.  The cached availability is read into `availability`; on
a miss the collaborator is called and its result — `true`, `false` or
`undefined` — is written to the cache (a thrown fetch rejection is caught
by the daemon with nothing written).  The final rating-queue fan-out tests
`availability`: the inner `const availability` of the source shadows the
outer binding, so this is the pre-call cached value, which on the miss path
is still `undefined`. -/
def whoisTick (dns : Bool) (whoisFetch : Except Unit (Option WhoisData))
    (s : SysState) : SysState × Bool :=
  match s.whoisQueue with
  | [] => (s, false)
  | word :: rest =>
    if word = "" then (s, false)
    else
      let s := { s with whoisQueue := rest }
      if word.length < s.minLength || word.length > s.maxLength then (s, false)
      else
        let availability := cacheGetFlat s.whoisCache word
        match availability with
        | none =>
          match (checkDomainAvailability word dns whoisFetch).1 with
          | .error _ => (s, true)
          | .ok v =>
            ({ s with whoisCache := cacheSet s.whoisCache word v }, true)
        | some a =>
          (if a then { s with ratingQueue := setAdd s.ratingQueue word }
           else s, false)

/-- One tick of the rating daemon: falsy-entry early return, delete, cache
consultation, and on a miss the `rateName` result (which may be the `-1`
sentinel or `undefined`) is written to the ratings cache.  Terminal stage:
no fan-out. -/
def ratingTick (o : RateOutcome) (s : SysState) : SysState × Bool :=
  match s.ratingQueue with
  | [] => (s, false)
  | word :: rest =>
    if word = "" then (s, false)
    else
      let s := { s with ratingQueue := rest }
      match cacheGetFlat s.ratingsCache word with
      | some _ => (s, false)
      | none =>
        ({ s with ratingsCache := cacheSet s.ratingsCache word (rateName o) },
         true)

/-- One tick of the termination-check daemon: when the translation,
webification, synonym, whois, search and rating queues are all empty at the
instant of the check, the process exits successfully. -/
def terminationTick (s : SysState) : SysState :=
  if s.translationQueue.length = 0 && s.webificationQueue.length = 0 &&
     s.synonymQueue.length = 0 && s.whoisQueue.length = 0 &&
     s.searchQueue.length = 0 && s.ratingQueue.length = 0 then
    { s with exitReason := .convergence }
  else s

/-- One scheduler step: some daemon's timer fires and its tick runs with
some collaborator outcome. -/
inductive Step : SysState → SysState → Prop where
  | watcher (file : Option String) (s : SysState) :
      Step s (watcherTick file s)
  | translation (o : Except Unit (List Translation)) (s : SysState) :
      Step s (translationTick o s).1
  | synonym (o : ChatOutcome) (s : SysState) :
      Step s (synonymTick o s).1
  | webification (o : ChatOutcome) (s : SysState) :
      Step s (webificationTick o s).1
  | whois (dns : Bool) (f : Except Unit (Option WhoisData)) (s : SysState) :
      Step s (whoisTick dns f s).1
  | rating (o : RateOutcome) (s : SysState) :
      Step s (ratingTick o s).1
  | termination (s : SysState) :
      Step s (terminationTick s)

/-! ### Concrete scenario states -/

/-- A run state whose whois queue holds one candidate that already has a
cached availability of `true`. -/
def whoisHitState : SysState :=
  { emptyState 3 10 with
      whoisQueue := ["abcd"], whoisCache := [("abcd", some true)] }

/-- A run state whose whois queue holds one candidate with no cached
availability. -/
def whoisMissState : SysState :=
  { emptyState 3 10 with whoisQueue := ["abcd"] }

/-- Like `whoisMissState` but for a second candidate word. -/
def whoisMissState2 : SysState :=
  { emptyState 3 10 with whoisQueue := ["wllt"] }

/-- A WHOIS fetch outcome: a parsed body with `success = true` and
`result.found = false`, i.e. the registry reports the domain unregistered. -/
def whoisUnregistered : Except Unit (Option WhoisData) :=
  .ok (some ⟨true, some false⟩)

/-- A run state whose rating queue holds one word with no cached rating. -/
def ratingMissState : SysState :=
  { emptyState 3 10 with ratingQueue := ["abcd"] }

/-- A run state in which two base words are queued for synonym lookup and
the synonyms cache already maps both of them to the same single synonym. -/
def synonymDupState : SysState :=
  { emptyState 3 10 with
      synonymQueue := ["big", "large"],
      synonymsCache := [("big", ["huge"]), ("large", ["huge"])] }

/-- The pseudo-translation record the synonym daemon builds for the synonym
word `huge`. -/
def hugeRecord : Translation := ⟨"huge", ⟨"English", "en"⟩, ⟨"huge", "huge"⟩⟩

/-- A translation record for one Italian translation of `wallet`. -/
def walletItalian : Translation :=
  ⟨"wallet", ⟨"Italian", "it"⟩, ⟨"portafoglio", "portafoglio"⟩⟩

/-- A run state whose webification queue holds one record whose cleaned form
is not yet in the webified cache. -/
def webMissState : SysState :=
  { emptyState 3 10 with webificationQueue := [(0, walletItalian)] }

/-- A run state with a pending item of every kind and no cache entries, used
to exercise the failure paths of all four non-availability stages at once. -/
def allMissState : SysState :=
  { emptyState 3 10 with
      translationQueue := ["wallet"],
      synonymQueue := ["wallet"],
      webificationQueue := [(0, walletItalian)],
      ratingQueue := ["wallet"] }

/-- The first occurrence of the empty string and everything queued behind
it: the part of a queue a stage can no longer reach once the empty string
is at the front, since the tick returns on the falsy dequeue without
deleting it. -/
def blockedSuffix (q : List String) : List String :=
  q.dropWhile (fun x => x ≠ "")

/-! ### Helper lemmas about the queue fabric and cache store -/

theorem cacheGet_cacheSet {α : Type} (c : List (String × α)) (k : String)
    (v : α) : cacheGet (cacheSet c k v) k = some v := by
  unfold cacheGet cacheSet
  split
  · rename_i h
    induction c with
    | nil => simp at h
    | cons p c ih =>
      by_cases hp : p.1 = k
      · simp [List.find?, hp]
      · simp only [List.any_cons, Bool.or_eq_true, decide_eq_true_eq] at h
        rcases h with h | h
        · exact absurd h hp
        · simpa [List.find?, hp] using ih h
  · induction c with
    | nil => simp [List.find?]
    | cons p c ih =>
      rename_i h
      simp only [List.any_cons, Bool.or_eq_true, decide_eq_true_eq,
        not_or] at h
      have hd : (decide (p.1 = k)) = false := decide_eq_false h.1
      simp only [List.cons_append, List.find?, hd]
      exact ih (by simpa using h.2)

theorem mem_setAdd_self (q : List String) (w : String) : w ∈ setAdd q w := by
  unfold setAdd
  split
  · assumption
  · simp

theorem mem_setAdd_of_mem {q : List String} {w : String} (r : String)
    (h : w ∈ q) : w ∈ setAdd q r := by
  unfold setAdd
  split
  · exact h
  · exact List.mem_append_left _ h

theorem foldl_proj {β : Type} {γ : Type} (f : SysState → β → SysState)
    (proj : SysState → γ) (hf : ∀ st b, proj (f st b) = proj st)
    (l : List β) (st : SysState) : proj (List.foldl f st l) = proj st := by
  induction l generalizing st with
  | nil => rfl
  | cons b l ih => rw [List.foldl_cons, ih, hf]

theorem translationFanOut_translationCache (ts : List (Nat × Translation))
    (s : SysState) :
    (translationFanOut ts s).translationCache = s.translationCache := by
  unfold translationFanOut
  exact foldl_proj _ _ (fun st p => by dsimp only; split <;> rfl) ts s

theorem synonymFanOut_synonymsCache (syns : List String) (s : SysState) :
    (synonymFanOut syns s).synonymsCache = s.synonymsCache := by
  unfold synonymFanOut
  apply foldl_proj
  intro st b
  rfl

theorem webFanOut_webifiedCache (key : String) (ws : List String)
    (s : SysState) : (webFanOut key ws s).webifiedCache = s.webifiedCache := by
  unfold webFanOut
  apply foldl_proj
  intro st b
  rfl

/-! ### C1 and C3: whois-stage evaluations -/

/-- C1: within one tick of the availability checker on the key `abcd`, a
pre-populated `whoisCache` entry `true` yields no external call and an
enqueue of `abcd` into the rating queue, while the same key freshly computed
to `true` (DNS miss, WHOIS success with `found = false`) yields an external
call whose result is cached yet no enqueue into the rating queue: the inner
`const availability` shadows the outer binding, so the cache-hit fan-out
differs from the freshly-computed fan-out, contradicting the cache-first
contract the stage pattern promises. -/
theorem whois_cacheHit_fanout_differs_from_fresh :
    (whoisTick false (.ok none) whoisHitState).2 = false ∧
    (whoisTick false (.ok none) whoisHitState).1.ratingQueue = ["abcd"] ∧
    (whoisTick false whoisUnregistered whoisMissState).2 = true ∧
    cacheGetFlat (whoisTick false whoisUnregistered whoisMissState).1.whoisCache
      "abcd" = some true ∧
    (whoisTick false whoisUnregistered whoisMissState).1.ratingQueue = [] := by
  refine ⟨rfl, rfl, rfl, rfl, rfl⟩

/-- C3: a word dequeued by the availability checker with no cached entry
whose fresh external check returns `true` is not enqueued to the rating
queue in that tick, even though its `true` outcome is written to the cache
and the external call happened; a word whose `true` outcome comes from the
cache is enqueued.  The fresh-outcome half contradicts the claim that a
`true` availability outcome from a fresh check feeds the rating queue. -/
theorem whois_fresh_true_not_enqueued_to_rating :
    (whoisTick false whoisUnregistered whoisMissState2).1.ratingQueue = [] ∧
    cacheGetFlat
      (whoisTick false whoisUnregistered whoisMissState2).1.whoisCache "wllt"
      = some true ∧
    (whoisTick false whoisUnregistered whoisMissState2).2 = true ∧
    (whoisTick false (.ok none)
      { whoisMissState2 with whoisCache := [("wllt", some true)] }).1.ratingQueue
      = ["wllt"] := by
  refine ⟨rfl, rfl, rfl, rfl⟩

/-! ### C2: the availability check's result table -/

/-- C2 counterexample: on a DNS miss, a WHOIS request that itself rejects
(a network-level fetch failure) does not make `checkDomainAvailability`
return `undefined` — the `await fetch` has no catch, so the function throws
instead of returning. -/
theorem checkDomainAvailability_fetch_rejection_throws :
    (checkDomainAvailability "abc" false (.error ())).1 = .error () ∧
    (Except.error () : Except Unit (Option Bool)) ≠ .ok none := by
  exact ⟨rfl, by simp⟩

/-- C2 amended: `checkDomainAvailability` returns `false` without calling
the WHOIS provider whenever DNS resolves; on a DNS miss it calls the
provider and returns `false` on `found = true`, `true` on any other `found`
under a successful response, and `undefined` when the body fails to parse
or carries `success = false`; a rejection of the fetch itself propagates as
a thrown exception rather than an `undefined` result. -/
theorem checkDomainAvailability_cases (w : String) (d : WhoisData) :
    (∀ f, (checkDomainAvailability w true f).1 = .ok (some false) ∧
      (checkDomainAvailability w true f).2 = false) ∧
    (∀ f, (checkDomainAvailability w false f).2 = true) ∧
    (d.success = true → d.found = some true →
      (checkDomainAvailability w false (.ok (some d))).1 = .ok (some false)) ∧
    (d.success = true → d.found ≠ some true →
      (checkDomainAvailability w false (.ok (some d))).1 = .ok (some true)) ∧
    (checkDomainAvailability w false (.ok none)).1 = .ok none ∧
    (d.success = false →
      (checkDomainAvailability w false (.ok (some d))).1 = .ok none) ∧
    (checkDomainAvailability w false (.error ())).1 = .error () := by
  refine ⟨fun f => ⟨rfl, rfl⟩, fun f => ?_, fun hs hf => ?_, fun hs hf => ?_,
    rfl, fun hs => ?_, rfl⟩
  · unfold checkDomainAvailability
    rcases f with e | o
    · rfl
    · rcases o with _ | d'
      · rfl
      · by_cases h : d'.success <;> simp [h]
  · unfold checkDomainAvailability
    simp [hs, hf]
  · unfold checkDomainAvailability
    rcases hfound : d.found with _ | b
    · simp [hs, hfound]
    · rcases b with _ | _
      · simp [hs, hfound]
      · exact absurd hfound hf
  · unfold checkDomainAvailability
    simp [hs]

/-- C2 amended witness: the case table applied to the unregistered, the
registered, the unparsable and the failed-flag responses for one concrete
word. -/
theorem checkDomainAvailability_cases_witness :
    (checkDomainAvailability "abc" false (.ok (some ⟨true, some true⟩))).1
      = .ok (some false) ∧
    (checkDomainAvailability "abc" false (.ok (some ⟨true, some false⟩))).1
      = .ok (some true) ∧
    (checkDomainAvailability "abc" false (.ok (some ⟨false, some false⟩))).1
      = .ok none ∧
    (checkDomainAvailability "abc" true (.error ())).1 = .ok (some false) := by
  refine ⟨?_, ?_, ?_, ?_⟩
  · exact (checkDomainAvailability_cases "abc" ⟨true, some true⟩).2.2.1
      rfl rfl
  · exact (checkDomainAvailability_cases "abc" ⟨true, some false⟩).2.2.2.1
      rfl (by simp)
  · exact (checkDomainAvailability_cases "abc" ⟨false, some false⟩).2.2.2.2.2.1
      rfl
  · exact ((checkDomainAvailability_cases "abc" ⟨true, some true⟩).1
      (.error ())).1

/-! ### C4: what the non-availability stages cache on collaborator failure -/

/-- C4 counterexample: when the rater's collaborator call fails (the request
rejects and the catch handler yields an unusable response), the rating
daemon still writes a cache entry for the dequeued word — the sentinel `-1`
— so the word is a cache hit, not a cache miss, on any future run. -/
theorem rating_failure_writes_sentinel :
    (ratingTick .apiError ratingMissState).2 = true ∧
    cacheGet (ratingTick .apiError ratingMissState).1.ratingsCache "abcd"
      = some (some (-1)) := by
  exact ⟨rfl, rfl⟩

/-- C4 amended: a network-level rejection of the collaborator call leaves
the translation, synonym and webification caches untouched for the dequeued
key (so the key stays a cache miss and is retried on a future run); but a
malformed or content-missing response is cached as an empty result by the
translation, synonym and webification stages, and any rater failure is
cached as the sentinel `-1`, so those keys are cache hits on future runs. -/
theorem stage_failure_caching (s : SysState) (w : String) (rest : List String)
    (i : Nat) (rec : Translation) (wrest : List (Nat × Translation)) :
    (s.translationQueue = w :: rest → w ≠ "" →
      cacheGet s.translationCache w = none →
      (translationTick (.error ()) s).1.translationCache
        = s.translationCache) ∧
    (s.synonymQueue = w :: rest → w ≠ "" →
      cacheGet s.synonymsCache w = none →
      (synonymTick .apiError s).1.synonymsCache = s.synonymsCache) ∧
    (s.webificationQueue = (i, rec) :: wrest →
      cacheGet s.webifiedCache rec.translation.cleaned = none →
      (webificationTick .apiError s).1.webifiedCache = s.webifiedCache) ∧
    (s.webificationQueue = (i, rec) :: wrest →
      cacheGet s.webifiedCache rec.translation.cleaned = none →
      (webificationTick .noContent s).1.webifiedCache
        = cacheSet s.webifiedCache rec.translation.cleaned ⟨rec, []⟩) ∧
    (s.ratingQueue = w :: rest → w ≠ "" →
      cacheGetFlat s.ratingsCache w = none →
      (ratingTick .apiError s).1.ratingsCache
        = cacheSet s.ratingsCache w (some (-1))) ∧
    (s.translationQueue = w :: rest → w ≠ "" →
      cacheGet s.translationCache w = none →
      (translationTick (.ok []) s).1.translationCache
        = cacheSet s.translationCache w []) ∧
    (s.synonymQueue = w :: rest → w ≠ "" →
      cacheGet s.synonymsCache w = none →
      (synonymTick .noContent s).1.synonymsCache
        = cacheSet s.synonymsCache w []) := by
  refine ⟨fun hq hw hm => ?_, fun hq hw hm => ?_, fun hq hm => ?_,
    fun hq hm => ?_, fun hq hw hm => ?_, fun hq hw hm => ?_,
    fun hq hw hm => ?_⟩
  · simp only [translationTick, hq]
    rw [if_neg hw]
    simp only [hm]
  · simp only [synonymTick, hq]
    rw [if_neg hw]
    simp only [hm, getSynonyms, llmStringList]
  · simp only [webificationTick, hq, hm]
    rfl
  · simp only [webificationTick, hq, hm]
    exact webFanOut_webifiedCache _ _ _
  · simp only [ratingTick, hq]
    rw [if_neg hw]
    simp only [hm, rateName]
  · simp only [translationTick, hq]
    rw [if_neg hw]
    simp only [hm]
    rw [translationFanOut_translationCache]
    rfl
  · simp only [synonymTick, hq]
    rw [if_neg hw]
    simp only [hm, getSynonyms, llmStringList]
    rw [synonymFanOut_synonymsCache]

/-- C4 amended witness: the five conclusions at a concrete state holding a
pending item for every stage and no cache entries. -/
theorem setAdd_eq_of_mem {q : List String} {w : String} (h : w ∈ q) :
    setAdd q w = q := by
  unfold setAdd
  exact if_pos h

theorem addRef_any (q : List (Nat × Translation)) (i : Nat) (t : Translation) :
    (addRef q i t).any (fun p => p.1 = i) = true := by
  unfold addRef
  split
  · assumption
  · simp

theorem addRef_eq_of_any {q : List (Nat × Translation)} {i : Nat}
    (t : Translation) (h : q.any (fun p => p.1 = i) = true) :
    addRef q i t = q := by
  unfold addRef
  exact if_pos h

/-- C5: when the availability check of a dequeued, in-range, cache-miss word
comes back `undefined`, the write into the whois cache is not terminal: the
stored slot still reads back as `undefined`, so a later tick that dequeues
the same word takes the cache-miss branch and calls the external
availability check again. -/
theorem whois_undefined_not_terminal (s : SysState) (w : String)
    (rest rest2 : List String) (dns dns2 : Bool)
    (f f2 : Except Unit (Option WhoisData))
    (hq : s.whoisQueue = w :: rest) (hw : w ≠ "")
    (hmin : s.minLength ≤ w.length) (hmax : w.length ≤ s.maxLength)
    (hmiss : cacheGetFlat s.whoisCache w = none)
    (hres : (checkDomainAvailability w dns f).1 = .ok none) :
    (whoisTick dns f s).2 = true ∧
    cacheGetFlat (whoisTick dns f s).1.whoisCache w = none ∧
    (whoisTick dns2 f2
      { (whoisTick dns f s).1 with whoisQueue := w :: rest2 }).2 = true := by
  have hl1 : decide (w.length < s.minLength) = false :=
    decide_eq_false (Nat.not_lt.mpr hmin)
  have hl2 : decide (w.length > s.maxLength) = false :=
    decide_eq_false (Nat.not_lt.mpr hmax)
  have h1 : whoisTick dns f s
      = ({ s with whoisQueue := rest, whoisCache := cacheSet s.whoisCache w none }, true) := by
    simp only [whoisTick, hq]
    rw [if_neg hw]
    simp only [hl1, hl2, Bool.or_self, Bool.false_eq_true, if_false, hmiss,
      hres]
  refine ⟨by rw [h1], ?_, ?_⟩
  · rw [h1]
    unfold cacheGetFlat
    rw [cacheGet_cacheSet]
    rfl
  · rw [h1]
    have hmiss2 : cacheGetFlat (cacheSet s.whoisCache w none) w = none := by
      unfold cacheGetFlat
      rw [cacheGet_cacheSet]
      rfl
    simp only [whoisTick]
    rw [if_neg hw]
    simp only [hl1, hl2, Bool.or_self, Bool.false_eq_true, if_false, hmiss2]
    rcases h2 : (checkDomainAvailability w dns2 f2).1 with e | v <;> rfl

/-- C5 witness: the tri-state `undefined` (a failed-flag WHOIS response on a
DNS miss) is cached without becoming terminal for the concrete word `abcd`,
and a tick that dequeues `abcd` again repeats the external check. -/
theorem whois_undefined_not_terminal_witness :
    (whoisTick false (.ok (some ⟨false, none⟩)) whoisMissState).2 = true ∧
    cacheGetFlat
      (whoisTick false (.ok (some ⟨false, none⟩)) whoisMissState).1.whoisCache
      "abcd" = none ∧
    (whoisTick false (.ok (some ⟨false, none⟩))
      { (whoisTick false (.ok (some ⟨false, none⟩)) whoisMissState).1 with
          whoisQueue := ["abcd"] }).2 = true := by
  exact whois_undefined_not_terminal whoisMissState "abcd" [] [] false false
    (.ok (some ⟨false, none⟩)) (.ok (some ⟨false, none⟩)) rfl (by decide)
    (by decide) (by decide) rfl rfl

/-- C6 counterexample: processing the base words `big` and `large`, whose
cached synonym lists both contain `huge`, leaves two pending webification
entries whose translation-record content is identical — the
`Set<Translation>` deduplicates by object reference, not by record content —
while the string-keyed whois queue ends up with a single `huge` entry. -/
theorem webification_queue_duplicate_content :
    ((synonymTick .apiError
        (synonymTick .apiError synonymDupState).1).1.webificationQueue.map
      Prod.snd) = [hugeRecord, hugeRecord] ∧
    (synonymTick .apiError
      (synonymTick .apiError synonymDupState).1).1.whoisQueue = ["huge"] := by
  exact ⟨rfl, rfl⟩

/-- C6 amended: enqueueing the same string twice into a string-keyed queue
before it is drained leaves exactly one pending entry, and re-adding the
very same record object to the webification queue is likewise a no-op; but
two separately created record objects with identical content are both
retained, so the webification queue can hold two pending entries with the
same translation-record content. -/
theorem queue_dedup_by_value_and_identity (q : List String) (w : String)
    (qr : List (Nat × Translation)) (i j : Nat) (t : Translation) :
    setAdd (setAdd q w) w = setAdd q w ∧
    addRef (addRef qr i t) i t = addRef qr i t ∧
    (i ≠ j → qr.any (fun p => p.1 = i) = false →
      qr.any (fun p => p.1 = j) = false →
      (addRef (addRef qr i t) j t).length = qr.length + 2) := by
  refine ⟨setAdd_eq_of_mem (mem_setAdd_self q w),
    addRef_eq_of_any t (addRef_any qr i t), fun hij hi hj => ?_⟩
  have h1 : addRef qr i t = qr ++ [(i, t)] := by
    unfold addRef
    rw [hi]
    rfl
  have h2 : (qr ++ [(i, t)]).any (fun p => p.1 = j) = false := by
    simp only [List.any_append, hj, Bool.false_or, List.any_cons,
      List.any_nil, Bool.or_false]
    exact decide_eq_false hij
  rw [h1]
  unfold addRef
  rw [h2]
  simp

/-- C6 amended witness: the dedup laws at a concrete queue, word, tag pair
and record. -/
theorem queue_dedup_witness :
    setAdd (setAdd ["wallet"] "huge") "huge" = setAdd ["wallet"] "huge" ∧
    addRef (addRef [] 0 hugeRecord) 0 hugeRecord = addRef [] 0 hugeRecord ∧
    (addRef (addRef [] 0 hugeRecord) 1 hugeRecord).length = 2 := by
  have T := queue_dedup_by_value_and_identity ["wallet"] "huge" [] 0 1
    hugeRecord
  exact ⟨T.1, T.2.1, T.2.2 (by decide) rfl rfl⟩

/-- C7 counterexample: the watcher enqueues the base word `ab` into the
whois (availability) queue although its length is below the configured
minimum of 3 — the length filter is not applied at enqueue time. -/
theorem short_word_enqueued_to_whois :
    (watcherTick (some "ab\nwallet") (emptyState 3 10)).whoisQueue
      = ["ab", "wallet"] ∧
    "ab".length < (emptyState 3 10).minLength := by
  exact ⟨by decide, by decide⟩

/-- C7 amended: a word whose length is outside the configured bounds may sit
in the whois queue, but the tick that dequeues it discards it before any
cache lookup, any external availability call, and any rating-queue fan-out:
the tick only removes the word. -/
theorem whois_length_filter_at_dequeue (s : SysState) (w : String)
    (rest : List String) (dns : Bool) (f : Except Unit (Option WhoisData))
    (hq : s.whoisQueue = w :: rest) (hw : w ≠ "")
    (hlen : w.length < s.minLength ∨ w.length > s.maxLength) :
    whoisTick dns f s = ({ s with whoisQueue := rest }, false) := by
  simp only [whoisTick, hq]
  rw [if_neg hw]
  rcases hlen with h | h <;> simp [h]

/-- C7 amended witness: the out-of-range word `ab` is dequeued and dropped
with no external call and no other state change. -/
theorem whois_length_filter_witness :
    whoisTick false (.ok none)
        { emptyState 3 10 with whoisQueue := ["ab"] }
      = ({ emptyState 3 10 with whoisQueue := ([] : List String) }, false) := by
  exact whois_length_filter_at_dequeue _ "ab" [] false (.ok none) rfl
    (by decide) (Or.inl (by decide))

/-- C8: one tick of the termination-check daemon moves a running process to
the successful-convergence exit exactly when the translation, webification,
synonym, whois, search and rating queues are all empty at the instant of
the check. -/
theorem termination_exits_iff_queues_empty (s : SysState)
    (h : s.exitReason = .running) :
    (terminationTick s).exitReason = .convergence ↔
      (s.translationQueue = [] ∧ s.webificationQueue = [] ∧
       s.synonymQueue = [] ∧ s.whoisQueue = [] ∧
       s.searchQueue = [] ∧ s.ratingQueue = []) := by
  unfold terminationTick
  split
  · rename_i hc
    simp only [Bool.and_eq_true, decide_eq_true_eq,
      List.length_eq_zero] at hc
    exact iff_of_true rfl (by tauto)
  · rename_i hc
    rw [h]
    constructor
    · intro hx
      exact ExitReason.noConfusion hx
    · intro hx
      refine absurd ?_ hc
      simp [hx.1, hx.2.1, hx.2.2.1, hx.2.2.2.1, hx.2.2.2.2.1,
        hx.2.2.2.2.2]

/-- C8 witness: a running state with all queues empty exits by convergence
after one termination tick, and one with a pending whois entry does not. -/
theorem termination_exits_witness :
    (terminationTick (emptyState 3 10)).exitReason = .convergence ∧
    ¬ (terminationTick whoisMissState).exitReason = .convergence := by
  constructor
  · exact (termination_exits_iff_queues_empty (emptyState 3 10) rfl).mpr
      ⟨rfl, rfl, rfl, rfl, rfl, rfl⟩
  · intro hx
    have := (termination_exits_iff_queues_empty whoisMissState rfl).mp hx
    simp [whoisMissState, emptyState] at this

theorem stage_failure_caching_witness :
    (translationTick (.error ()) allMissState).1.translationCache
      = allMissState.translationCache ∧
    (synonymTick .apiError allMissState).1.synonymsCache
      = allMissState.synonymsCache ∧
    (webificationTick .apiError allMissState).1.webifiedCache
      = allMissState.webifiedCache ∧
    (webificationTick .noContent allMissState).1.webifiedCache
      = cacheSet allMissState.webifiedCache "portafoglio"
          ⟨walletItalian, []⟩ ∧
    (ratingTick .apiError allMissState).1.ratingsCache
      = cacheSet allMissState.ratingsCache "wallet" (some (-1)) ∧
    (translationTick (.ok []) allMissState).1.translationCache
      = cacheSet allMissState.translationCache "wallet" [] ∧
    (synonymTick .noContent allMissState).1.synonymsCache
      = cacheSet allMissState.synonymsCache "wallet" [] := by
  have T := stage_failure_caching allMissState "wallet" [] 0 walletItalian []
  exact ⟨T.1 rfl (by decide) rfl, T.2.1 rfl (by decide) rfl,
    T.2.2.1 rfl rfl, T.2.2.2.1 rfl rfl, T.2.2.2.2.1 rfl (by decide) rfl,
    T.2.2.2.2.2.1 rfl (by decide) rfl, T.2.2.2.2.2.2 rfl (by decide) rfl⟩

/-! ### C9: idempotence of the cleaning expression -/

theorem char_toNat_ofNat_valid (n : Nat) (h : n.isValidChar) :
    (Char.ofNat n).toNat = n := by
  rw [Char.ofNat, dif_pos h]
  rfl

theorem toLower_lower_range (c : Char) (h : isAsciiLetter c = true) :
    97 ≤ (Char.toLower c).toNat ∧ (Char.toLower c).toNat ≤ 122 := by
  simp only [isAsciiLetter, Bool.or_eq_true, Bool.and_eq_true,
    decide_eq_true_eq] at h
  unfold Char.toLower
  dsimp only
  split
  · rename_i h'
    have hv : (c.toNat + 32).isValidChar := Or.inl (by omega)
    rw [char_toNat_ofNat_valid _ hv]
    omega
  · rename_i h'
    omega

theorem toLower_fix (c : Char) (h1 : 97 ≤ c.toNat) (h2 : c.toNat ≤ 122) :
    Char.toLower c = c := by
  unfold Char.toLower
  dsimp only
  split
  · rename_i h'
    omega
  · rfl

theorem isAsciiLetter_of_lower (c : Char) (h1 : 97 ≤ c.toNat)
    (h2 : c.toNat ≤ 122) : isAsciiLetter c = true := by
  simp only [isAsciiLetter, Bool.or_eq_true, Bool.and_eq_true,
    decide_eq_true_eq]
  omega

theorem flatMap_fix (u : Char → List Char) (l : List Char)
    (h : ∀ c ∈ l, u c = [c]) : l.flatMap u = l := by
  induction l with
  | nil => rfl
  | cons c cs ih =>
    rw [List.flatMap_cons, h c (List.mem_cons_self c cs),
      ih (fun d hd => h d (List.mem_cons_of_mem c hd))]
    rfl

/-- C9: the cleaning expression — transliterate, delete the characters
matching `[^a-zA-Z]`, lowercase — is idempotent, for every transliteration
that maps each ASCII code point to itself (the documented behaviour of
`unidecode`): cleaning a second time changes nothing, because the output of
one pass consists only of lowercase ASCII letters, which the
transliteration, the letter filter and the lowercasing all fix. -/
theorem clean_idempotent (u : Char → List Char)
    (hu : ∀ c : Char, c.toNat < 128 → u c = [c]) (s : String) :
    clean u (clean u s) = clean u s := by
  have hmem : ∀ c ∈ (clean u s).data, 97 ≤ c.toNat ∧ c.toNat ≤ 122 := by
    intro c hc
    simp only [clean] at hc
    rcases List.mem_map.mp hc with ⟨c0, hc0, rfl⟩
    exact toLower_lower_range c0 (List.mem_filter.mp hc0).2
  have hflat : (clean u s).data.flatMap u = (clean u s).data :=
    flatMap_fix u _ (fun c hc => hu c (by have := (hmem c hc).2; omega))
  have htr : translit u (clean u s) = clean u s := by
    unfold translit
    rw [hflat]
  have h1 : clean u (clean u s)
      = ⟨(((clean u s).data).filter isAsciiLetter).map Char.toLower⟩ := by
    rw [clean, htr, htr]
  rw [h1]
  rw [List.filter_eq_self.mpr
    (fun c hc => isAsciiLetter_of_lower c (hmem c hc).1 (hmem c hc).2)]
  have hmap : ((clean u s).data).map Char.toLower = (clean u s).data := by
    have := List.map_congr_left
      (fun c hc => toLower_fix c (hmem c hc).1 (hmem c hc).2)
    rw [this, List.map_id']
  rw [hmap]

/-- C9 witness: idempotence at the identity transliteration on a concrete
mixed-case string containing punctuation and digits. -/
theorem clean_idempotent_witness :
    clean (fun c => [c]) (clean (fun c => [c]) "Payment 123!")
      = clean (fun c => [c]) "Payment 123!" :=
  clean_idempotent (fun c => [c]) (fun _ _ => rfl) "Payment 123!"

/-! ### C10: an empty line wedges its queues and blocks convergence -/

theorem foldl_pres {β : Type} (f : SysState → β → SysState)
    (P : SysState → Prop) (hf : ∀ st b, P st → P (f st b)) :
    ∀ (l : List β) (st : SysState), P st → P (List.foldl f st l) := by
  intro l
  induction l with
  | nil => exact fun st h => h
  | cons b l ih =>
    intro st h
    rw [List.foldl_cons]
    exact ih _ (hf st b h)

theorem mem_dropWhile_append (p : String → Bool) (l l' : List String)
    (w : String) (h : w ∈ l.dropWhile p) : w ∈ (l ++ l').dropWhile p := by
  induction l with
  | nil => simp at h
  | cons a l ih =>
    by_cases hp : p a = true
    · simp only [List.dropWhile_cons, hp, if_true] at h
      simp only [List.cons_append, List.dropWhile_cons, hp, if_true]
      exact ih h
    · simp only [List.dropWhile_cons, hp, if_false] at h
      simp only [List.cons_append, List.dropWhile_cons, hp, if_false]
      rcases List.mem_cons.mp h with h | h
      · exact h ▸ List.mem_cons_self _ _
      · exact List.mem_cons_of_mem _ (List.mem_append_left _ h)

theorem blockedSuffix_setAdd (q : List String) (r w : String)
    (h : w ∈ blockedSuffix q) : w ∈ blockedSuffix (setAdd q r) := by
  unfold setAdd
  split
  · exact h
  · exact mem_dropWhile_append _ q [r] w h

theorem empty_mem_blockedSuffix {q : List String} (h : "" ∈ q) :
    "" ∈ blockedSuffix q := by
  induction q with
  | nil => simp at h
  | cons a q ih =>
    by_cases ha : a = ""
    · subst ha
      unfold blockedSuffix
      simp [List.dropWhile_cons]
    · have h' : "" ∈ q := by
        rcases List.mem_cons.mp h with h | h
        · exact absurd h.symm ha
        · exact h
      unfold blockedSuffix at ih ⊢
      simpa [List.dropWhile_cons, ha] using ih h'

theorem blockedSuffix_subset {q : List String} {w : String}
    (h : w ∈ blockedSuffix q) : w ∈ q :=
  (List.dropWhile_sublist _).subset h

theorem translationFanOut_tq (ts : List (Nat × Translation)) (s : SysState) :
    (translationFanOut ts s).translationQueue = s.translationQueue := by
  unfold translationFanOut
  apply foldl_proj
  intro st p
  dsimp only
  split <;> rfl

theorem translationFanOut_exit (ts : List (Nat × Translation))
    (s : SysState) : (translationFanOut ts s).exitReason = s.exitReason := by
  unfold translationFanOut
  apply foldl_proj
  intro st p
  dsimp only
  split <;> rfl

theorem synonymFanOut_tq (syns : List String) (s : SysState) :
    (synonymFanOut syns s).translationQueue = s.translationQueue := by
  unfold synonymFanOut
  apply foldl_proj
  intro st b
  rfl

theorem synonymFanOut_exit (syns : List String) (s : SysState) :
    (synonymFanOut syns s).exitReason = s.exitReason := by
  unfold synonymFanOut
  apply foldl_proj
  intro st b
  rfl

theorem webFanOut_tq (key : String) (ws : List String) (s : SysState) :
    (webFanOut key ws s).translationQueue = s.translationQueue := by
  unfold webFanOut
  apply foldl_proj
  intro st b
  rfl

theorem webFanOut_exit (key : String) (ws : List String) (s : SysState) :
    (webFanOut key ws s).exitReason = s.exitReason := by
  unfold webFanOut
  apply foldl_proj
  intro st b
  rfl

theorem translationTick_exit (o : Except Unit (List Translation))
    (s : SysState) : (translationTick o s).1.exitReason = s.exitReason := by
  rcases hq : s.translationQueue with _ | ⟨word, rest⟩ <;>
    simp only [translationTick, hq]
  by_cases hw : word = ""
  · simp [hw]
  · rw [if_neg hw]
    split
    · rw [translationFanOut_exit]
    · split
      · rfl
      · rw [translationFanOut_exit]

theorem translationTick_blockedSuffix (o : Except Unit (List Translation))
    (s : SysState) (w : String)
    (h : w ∈ blockedSuffix s.translationQueue) :
    w ∈ blockedSuffix (translationTick o s).1.translationQueue := by
  rcases hq : s.translationQueue with _ | ⟨word, rest⟩ <;>
    simp only [translationTick, hq] <;> rw [hq] at h
  · exact h
  · by_cases hw : word = ""
    · simpa [hw, hq] using h
    · have h' : w ∈ blockedSuffix rest := by
        unfold blockedSuffix at h ⊢
        simpa [List.dropWhile_cons, hw] using h
      rw [if_neg hw]
      split
      · rw [translationFanOut_tq]
        exact h'
      · split
        · exact h'
        · rw [translationFanOut_tq]
          exact h'

theorem synonymTick_tq_exit (o : ChatOutcome) (s : SysState) :
    (synonymTick o s).1.translationQueue = s.translationQueue ∧
    (synonymTick o s).1.exitReason = s.exitReason := by
  rcases hq : s.synonymQueue with _ | ⟨word, rest⟩ <;>
    simp only [synonymTick, hq]
  · exact ⟨trivial, trivial⟩
  · by_cases hw : word = ""
    · simp [hw]
    · rw [if_neg hw]
      split
      · exact ⟨synonymFanOut_tq _ _, synonymFanOut_exit _ _⟩
      · split
        · exact ⟨rfl, rfl⟩
        · exact ⟨synonymFanOut_tq _ _, synonymFanOut_exit _ _⟩

theorem webificationTick_tq_exit (o : ChatOutcome) (s : SysState) :
    (webificationTick o s).1.translationQueue = s.translationQueue ∧
    (webificationTick o s).1.exitReason = s.exitReason := by
  rcases hq : s.webificationQueue with _ | ⟨⟨i, rec⟩, rest⟩ <;>
    simp only [webificationTick, hq]
  · exact ⟨trivial, trivial⟩
  · split
    · exact ⟨webFanOut_tq _ _ _, webFanOut_exit _ _ _⟩
    · split
      · exact ⟨rfl, rfl⟩
      · exact ⟨webFanOut_tq _ _ _, webFanOut_exit _ _ _⟩

theorem whoisTick_tq_exit (dns : Bool) (f : Except Unit (Option WhoisData))
    (s : SysState) :
    (whoisTick dns f s).1.translationQueue = s.translationQueue ∧
    (whoisTick dns f s).1.exitReason = s.exitReason := by
  rcases hq : s.whoisQueue with _ | ⟨word, rest⟩ <;>
    simp only [whoisTick, hq]
  · exact ⟨trivial, trivial⟩
  · by_cases hw : word = ""
    · simp [hw]
    · rw [if_neg hw]
      split
      · exact ⟨rfl, rfl⟩
      · split
        · split
          · exact ⟨rfl, rfl⟩
          · exact ⟨rfl, rfl⟩
        · split <;> exact ⟨rfl, rfl⟩

theorem ratingTick_tq_exit (o : RateOutcome) (s : SysState) :
    (ratingTick o s).1.translationQueue = s.translationQueue ∧
    (ratingTick o s).1.exitReason = s.exitReason := by
  rcases hq : s.ratingQueue with _ | ⟨word, rest⟩ <;>
    simp only [ratingTick, hq]
  · exact ⟨trivial, trivial⟩
  · by_cases hw : word = ""
    · simp [hw]
    · rw [if_neg hw]
      split
      · exact ⟨rfl, rfl⟩
      · exact ⟨rfl, rfl⟩

theorem terminationTick_tq (s : SysState) :
    (terminationTick s).translationQueue = s.translationQueue := by
  unfold terminationTick
  split <;> rfl

theorem terminationTick_exit_of_ne_nil (s : SysState)
    (h : s.translationQueue ≠ []) :
    (terminationTick s).exitReason = s.exitReason := by
  unfold terminationTick
  rw [if_neg]
  intro hc
  simp only [Bool.and_eq_true, decide_eq_true_eq, List.length_eq_zero] at hc
  exact h hc.1.1.1.1.1

theorem watcherAddWord_blockedSuffix (st : SysState) (a w : String)
    (h : w ∈ blockedSuffix st.translationQueue) :
    w ∈ blockedSuffix (watcherAddWord st a).translationQueue := by
  unfold watcherAddWord
  split
  · exact h
  · exact blockedSuffix_setAdd _ _ _ h

theorem watcherTick_blockedSuffix (file : Option String) (s : SysState)
    (w : String) (h : w ∈ blockedSuffix s.translationQueue) :
    w ∈ blockedSuffix (watcherTick file s).translationQueue := by
  rcases file with _ | contents
  · exact h
  · exact foldl_pres watcherAddWord
      (fun st => w ∈ blockedSuffix st.translationQueue)
      (fun st b hb => watcherAddWord_blockedSuffix st b w hb)
      (splitLines contents) s h

theorem watcherTick_exit (file : Option String) (s : SysState)
    (h : s.exitReason ≠ .convergence) :
    (watcherTick file s).exitReason ≠ .convergence := by
  rcases file with _ | contents
  · intro hc
    exact ExitReason.noConfusion hc
  · have : (watcherTick (some contents) s).exitReason = s.exitReason := by
      unfold watcherTick
      apply foldl_pres watcherAddWord
        (fun st => st.exitReason = s.exitReason)
      · intro st b hb
        unfold watcherAddWord
        split
        · exact hb
        · exact hb
      · rfl
    rw [this]
    exact h

theorem watcher_fold_seeds (ws : List String) :
    ∀ st : SysState,
    (("" ∈ ws ∧ "" ∉ st.localBaseWordCache) ∨
      ("" ∈ st.translationQueue ∧ "" ∈ st.synonymQueue ∧
        "" ∈ st.whoisQueue)) →
    ("" ∈ (ws.foldl watcherAddWord st).translationQueue ∧
     "" ∈ (ws.foldl watcherAddWord st).synonymQueue ∧
     "" ∈ (ws.foldl watcherAddWord st).whoisQueue) := by
  induction ws with
  | nil =>
    intro st h
    rcases h with ⟨h1, _⟩ | h
    · simp at h1
    · exact h
  | cons a ws ih =>
    intro st h
    rw [List.foldl_cons]
    rcases h with ⟨h1, h2⟩ | hQ
    · by_cases ha : a = ""
      · subst ha
        refine ih _ (Or.inr ?_)
        unfold watcherAddWord
        rw [if_neg h2]
        exact ⟨mem_setAdd_self _ _, mem_setAdd_self _ _, mem_setAdd_self _ _⟩
      · have h1' : "" ∈ ws := by
          rcases List.mem_cons.mp h1 with h | h
          · exact absurd h.symm ha
          · exact h
        refine ih _ (Or.inl ⟨h1', ?_⟩)
        unfold watcherAddWord
        split
        · exact h2
        · intro hc
          rcases List.mem_append.mp hc with hc | hc
          · exact h2 hc
          · exact ha (List.mem_singleton.mp hc).symm
    · refine ih _ (Or.inr ?_)
      unfold watcherAddWord
      split
      · exact hQ
      · exact ⟨mem_setAdd_of_mem _ hQ.1, mem_setAdd_of_mem _ hQ.2.1,
          mem_setAdd_of_mem _ hQ.2.2⟩

theorem step_blockedSuffix_mono {s s' : SysState} (hstep : Step s s')
    (w : String) (h : w ∈ blockedSuffix s.translationQueue) :
    w ∈ blockedSuffix s'.translationQueue := by
  cases hstep with
  | watcher file s => exact watcherTick_blockedSuffix file s w h
  | translation o s => exact translationTick_blockedSuffix o s w h
  | synonym o s => rw [(synonymTick_tq_exit o s).1]; exact h
  | webification o s => rw [(webificationTick_tq_exit o s).1]; exact h
  | whois dns f s => rw [(whoisTick_tq_exit dns f s).1]; exact h
  | rating o s => rw [(ratingTick_tq_exit o s).1]; exact h
  | termination s => rw [terminationTick_tq s]; exact h

theorem step_exit {s s' : SysState} (hstep : Step s s')
    (hq : "" ∈ s.translationQueue) (he : s.exitReason ≠ .convergence) :
    s'.exitReason ≠ .convergence := by
  cases hstep with
  | watcher file s => exact watcherTick_exit file s he
  | translation o s => rw [translationTick_exit o s]; exact he
  | synonym o s => rw [(synonymTick_tq_exit o s).2]; exact he
  | webification o s => rw [(webificationTick_tq_exit o s).2]; exact he
  | whois dns f s => rw [(whoisTick_tq_exit dns f s).2]; exact he
  | rating o s => rw [(ratingTick_tq_exit o s).2]; exact he
  | termination s =>
    rw [terminationTick_exit_of_ne_nil s (by
      intro hnil
      rw [hnil] at hq
      simp at hq)]
    exact he

theorem trace_blocked {s s' : SysState}
    (htrace : Relation.ReflTransGen Step s s') :
    (∀ w, w ∈ blockedSuffix s.translationQueue →
      w ∈ blockedSuffix s'.translationQueue) ∧
    ("" ∈ s.translationQueue → s.exitReason ≠ .convergence →
      ("" ∈ s'.translationQueue ∧ s'.exitReason ≠ .convergence)) := by
  induction htrace with
  | refl => exact ⟨fun w h => h, fun h1 h2 => ⟨h1, h2⟩⟩
  | tail hab hstep ih =>
    refine ⟨fun w h => step_blockedSuffix_mono hstep w (ih.1 w h),
      fun h1 h2 => ?_⟩
    have hb := ih.2 h1 h2
    exact ⟨blockedSuffix_subset
        (step_blockedSuffix_mono hstep "" (empty_mem_blockedSuffix hb.1)),
      step_exit hstep hb.1 hb.2⟩

/-- C10: if the watched file's content contains an empty line, the watcher
tick puts the empty string into the translation, synonym and whois queues;
from then on, along every possible interleaving of daemon ticks, the empty
string stays in the translation queue (each tick returns on the falsy
dequeued item before deleting it), everything queued at or behind the empty
string stays queued, the translation queue never becomes empty, and the
all-queues-empty convergence exit is never signalled. -/
theorem empty_line_blocks_convergence (contents : String)
    (s0 sEnd : SysState) (w : String)
    (hline : "" ∈ splitLines contents)
    (hseen : "" ∉ s0.localBaseWordCache)
    (hexit : s0.exitReason ≠ .convergence)
    (htrace : Relation.ReflTransGen Step (watcherTick (some contents) s0)
      sEnd) :
    "" ∈ (watcherTick (some contents) s0).translationQueue ∧
    "" ∈ (watcherTick (some contents) s0).synonymQueue ∧
    "" ∈ (watcherTick (some contents) s0).whoisQueue ∧
    "" ∈ sEnd.translationQueue ∧
    sEnd.translationQueue ≠ [] ∧
    sEnd.exitReason ≠ .convergence ∧
    (w ∈ blockedSuffix (watcherTick (some contents) s0).translationQueue →
      w ∈ blockedSuffix sEnd.translationQueue) := by
  have hseed := watcher_fold_seeds (splitLines contents) s0
    (Or.inl ⟨hline, hseen⟩)
  have hwexit : (watcherTick (some contents) s0).exitReason ≠ .convergence :=
    watcherTick_exit (some contents) s0 hexit
  have htr := trace_blocked htrace
  have hend := htr.2 hseed.1 hwexit
  refine ⟨hseed.1, hseed.2.1, hseed.2.2, hend.1, ?_, hend.2,
    fun hw => htr.1 w hw⟩
  intro hnil
  rw [hnil] at hend
  simp at hend

/-- C10 witness: the concrete file content `wallet\n` (one word plus a
trailing newline) seeds the empty string into the three queues, and after a
translation tick that processes `wallet` the empty string is still queued,
the translation queue is non-empty, and the process has not exited by
convergence. -/
theorem empty_line_blocks_convergence_witness :
    "" ∈ (watcherTick (some "wallet\n")
      (emptyState 3 10)).translationQueue ∧
    "" ∈ (watcherTick (some "wallet\n") (emptyState 3 10)).synonymQueue ∧
    "" ∈ (watcherTick (some "wallet\n") (emptyState 3 10)).whoisQueue ∧
    "" ∈ (translationTick (Except.error ())
      (watcherTick (some "wallet\n") (emptyState 3 10))).1.translationQueue ∧
    (translationTick (Except.error ())
      (watcherTick (some "wallet\n") (emptyState 3 10))).1.translationQueue
      ≠ [] ∧
    (translationTick (Except.error ())
      (watcherTick (some "wallet\n") (emptyState 3 10))).1.exitReason
      ≠ .convergence := by
  have T := empty_line_blocks_convergence "wallet\n" (emptyState 3 10)
    (translationTick (Except.error ())
      (watcherTick (some "wallet\n") (emptyState 3 10))).1 ""
    (by decide) (by decide) (by decide)
    (Relation.ReflTransGen.single
      (Step.translation (Except.error ())
        (watcherTick (some "wallet\n") (emptyState 3 10))))
  exact ⟨T.1, T.2.1, T.2.2.1, T.2.2.2.1, T.2.2.2.2.1, T.2.2.2.2.2.1⟩

end Domainterm
